import Mathlib

/-!
Verification of the order state and overlay synchronization engine of the
klinecharts-pro repository, against its design specification.

The TypeScript sources are shallowly embedded: JavaScript numbers are
modelled as rationals, JavaScript runtime values that may be absent
(`undefined`) are modelled with `Option`, the falsy-fallback idiom
`a || b` is modelled by explicit helpers, the `Map` objects of the order
manager are modelled as association lists with JavaScript `Map` update
semantics, and the side effects of the manager (host overlay calls,
callback notifications, console logging) are modelled as emission traces
returned next to the new state.
-/

namespace KlineOrders

/-- JSON value trees.  Used for the `customData : Record<string, any>`
field of orders and for the persistence layer, where `JSON.stringify` and
`JSON.parse` are modelled at the level of these trees. -/
inductive Json where
  | null : Json
  | bool (b : Bool) : Json
  | num (q : ℚ) : Json
  | str (s : String) : Json
  | arr (elems : List Json) : Json
  | obj (fields : List (String × Json)) : Json

/-- Order type enumeration from src/orders/types.ts. -/
inductive OrderType where
  | market | limit | stop_loss | take_profit | entry
deriving DecidableEq

/-- Order side enumeration from src/orders/types.ts. -/
inductive OrderSide where
  | buy | sell
deriving DecidableEq

/-- Order status enumeration from src/orders/types.ts. -/
inductive OrderStatus where
  | pending | filled | cancelled | partially_filled
deriving DecidableEq

/-- Order lifecycle event enumeration from src/orders/types.ts. -/
inductive OrderEvent where
  | created | updated | cancelled | filled | dragged
deriving DecidableEq

/-- The TradingOrder interface of src/orders/types.ts.  Required fields of
the TypeScript interface are total, optional fields are `Option`. -/
structure TradingOrder where
  id : String
  type : OrderType
  side : OrderSide
  price : ℚ
  quantity : ℚ
  symbol : String
  status : OrderStatus
  timestamp : ℚ
  text : Option String := none
  entryPrice : Option ℚ := none
  stopLoss : Option ℚ := none
  takeProfit : Option ℚ := none
  pnl : Option ℚ := none
  unrealizedPnl : Option ℚ := none
  fees : Option ℚ := none
  fillPrice : Option ℚ := none
  fillQuantity : Option ℚ := none
  customData : Option Json := none

/-! ### JavaScript value helpers

The engine uses the JavaScript idioms `a || b` (falsy fallback: the left
operand is kept unless it is `undefined`, `0` or the empty string) and
truthiness tests on possibly absent values.  They are modelled explicitly
so that every use in the embedded code is visible. -/

/-- JavaScript `x || d` for an optional string: `undefined` and the empty
string are falsy. -/
def jsOrStr (x : Option String) (d : String) : String :=
  match x with
  | some s => if s = "" then d else s
  | none => d

/-- JavaScript truthiness of an optional string. -/
def jsTruthyStr (x : Option String) : Bool :=
  match x with
  | some s => decide (s ≠ "")
  | none => false

/-- JavaScript `x || d` for an optional number: `undefined` and `0` are
falsy. -/
def jsOrQ (x : Option ℚ) (d : ℚ) : ℚ :=
  match x with
  | some v => if v = 0 then d else v
  | none => d

/-! ### Validation (src/orders/utils.ts, validateOrder) -/

/-- The argument of validateOrder, `Partial<TradingOrder>`: at runtime any
of the checked fields may be absent (`undefined`), which the static
TypeScript types do not rule out.  Only the fields validateOrder reads are
kept. -/
structure OrderDraft where
  id : Option String := none
  type : Option OrderType := none
  side : Option OrderSide := none
  price : Option ℚ := none
  quantity : Option ℚ := none
  symbol : Option String := none
  status : Option OrderStatus := none
deriving DecidableEq

/-- The check `typeof order.price !== 'number' || order.price <= 0` of
validateOrder, negated: the value is a number and is positive. -/
def validNum (x : Option ℚ) : Bool :=
  match x with
  | some v => decide (0 < v)
  | none => false

/-- validateOrder from src/orders/utils.ts: collects an error string for a
missing type, a missing side, a non-positive or missing price, a
non-positive or missing quantity, and a falsy (missing or empty) symbol.
The enumeration values for type and side are nonempty strings, hence
truthy whenever present, so `!order.type` is exactly `isNone`. -/
def validateOrder (o : OrderDraft) : List String :=
  (if o.type.isNone then ["Order type is required"] else []) ++
  (if o.side.isNone then ["Order side is required"] else []) ++
  (if validNum o.price then [] else ["Valid price is required"]) ++
  (if validNum o.quantity then [] else ["Valid quantity is required"]) ++
  (if jsTruthyStr o.symbol then [] else ["Symbol is required"])

/-! ### PnL calculation (src/orders/utils.ts, calculatePnL) -/

/-- The PnLResult interface of src/orders/types.ts. -/
structure PnLResult where
  unrealizedPnl : ℚ
  realizedPnl : ℚ
  percentage : ℚ
  fees : ℚ
  netPnl : ℚ
deriving DecidableEq

/-- calculatePnL from src/orders/utils.ts.  The entry price falls back to
`order.price` and the effective quantity to `order.quantity` through the
JavaScript `||` idiom; fees default to 0.  Unrealized PnL is computed only
for status filled or partially_filled, realized PnL only for status filled
with a truthy fillPrice.  The percentage guard divides only when the entry
price is positive; the division when the effective quantity is zero, which
in JavaScript yields a non-finite number, is the rational convention 0
here, and no theorem below relies on the percentage field. -/
def calculatePnL (order : TradingOrder) (currentPrice : ℚ) : PnLResult :=
  let entryPrice := jsOrQ order.entryPrice order.price
  let quantity := jsOrQ order.fillQuantity order.quantity
  let fees := jsOrQ order.fees 0
  let unrealizedPnl :=
    if order.status = OrderStatus.filled ∨ order.status = OrderStatus.partially_filled then
      if order.side = OrderSide.buy then (currentPrice - entryPrice) * quantity
      else (entryPrice - currentPrice) * quantity
    else 0
  let realizedPnl :=
    match order.fillPrice with
    | some fp =>
        if order.status = OrderStatus.filled ∧ fp ≠ 0 then
          if order.side = OrderSide.buy then (fp - entryPrice) * quantity
          else (entryPrice - fp) * quantity
        else 0
    | none => 0
  let netPnl := unrealizedPnl + realizedPnl - fees
  let percentage := if 0 < entryPrice then netPnl / (entryPrice * quantity) * 100 else 0
  { unrealizedPnl := unrealizedPnl, realizedPnl := realizedPnl,
    percentage := percentage, fees := fees, netPnl := netPnl }

/-! ### Display ordering (src/orders/utils.ts, getOrderPriority / sortOrders) -/

/-- getOrderPriority from src/orders/utils.ts.  The priority table maps
entry to 1, market to 2, limit to 3, stop_loss to 4 and take_profit to 5;
the `|| 999` fallback of the source is unreachable because the enumerated
order type always hits the table. -/
def getOrderPriority (order : TradingOrder) : ℕ :=
  match order.type with
  | OrderType.entry => 1
  | OrderType.market => 2
  | OrderType.limit => 3
  | OrderType.stop_loss => 4
  | OrderType.take_profit => 5

/-- The total preorder induced by the comparator of sortOrders: priority
first, then ascending price within equal priority. -/
def orderLE (a b : TradingOrder) : Prop :=
  getOrderPriority a < getOrderPriority b ∨
    (getOrderPriority a = getOrderPriority b ∧ a.price ≤ b.price)

instance : DecidableRel orderLE :=
  fun a b => decidable_of_iff
    (getOrderPriority a < getOrderPriority b ∨
      (getOrderPriority a = getOrderPriority b ∧ a.price ≤ b.price)) Iff.rfl

instance : IsTotal TradingOrder orderLE := by
  constructor
  intro a b
  rcases Nat.lt_trichotomy (getOrderPriority a) (getOrderPriority b) with h | h | h
  · exact Or.inl (Or.inl h)
  · rcases le_total a.price b.price with hp | hp
    · exact Or.inl (Or.inr ⟨h, hp⟩)
    · exact Or.inr (Or.inr ⟨h.symm, hp⟩)
  · exact Or.inr (Or.inl h)

instance : IsTrans TradingOrder orderLE := by
  constructor
  intro a b c hab hbc
  rcases hab with hab | ⟨hab, hab'⟩
  · rcases hbc with hbc | ⟨hbc, _⟩
    · exact Or.inl (hab.trans hbc)
    · exact Or.inl (hbc ▸ hab)
  · rcases hbc with hbc | ⟨hbc, hbc'⟩
    · exact Or.inl (hab ▸ hbc)
    · exact Or.inr ⟨hab.trans hbc, hab'.trans hbc'⟩

/-- sortOrders from src/orders/utils.ts: the JavaScript in-place sort with
the comparator (priority difference, then price difference), modelled as a
stable sort by the induced total preorder. -/
def sortOrders (orders : List TradingOrder) : List TradingOrder :=
  List.insertionSort orderLE orders

/-! ### Drag and cancel affordances (src/orders/utils.ts) -/

/-- isOrderDraggable from src/orders/utils.ts: only pending orders drag. -/
def isOrderDraggable (order : TradingOrder) : Bool :=
  decide (order.status = OrderStatus.pending)

/-- shouldShowCancelButton from src/orders/utils.ts. -/
def shouldShowCancelButton (order : TradingOrder) : Bool :=
  decide (order.status = OrderStatus.pending ∨ order.status = OrderStatus.partially_filled)

/-! ### JavaScript Map model

The order manager holds `Map<string, ...>` objects.  A Map is modelled as
an association list in insertion order: `mapSet` replaces the value of an
existing key in place and appends a fresh key at the end, `mapDelete`
removes the entry of the key, `mapGet` looks the key up. -/

/-- `Map.prototype.get`. -/
def mapGet {α : Type} (m : List (String × α)) (k : String) : Option α :=
  match m with
  | [] => none
  | (k1, v) :: rest => if k1 = k then some v else mapGet rest k

/-- `Map.prototype.set`: replace in place, or append a fresh key. -/
def mapSet {α : Type} (m : List (String × α)) (k : String) (v : α) : List (String × α) :=
  match m with
  | [] => [(k, v)]
  | (k1, v1) :: rest => if k1 = k then (k, v) :: rest else (k1, v1) :: mapSet rest k v

/-- `Map.prototype.delete`: remove the entry of the key. -/
def mapDelete {α : Type} (m : List (String × α)) (k : String) : List (String × α) :=
  match m with
  | [] => []
  | (k1, v1) :: rest => if k1 = k then rest else (k1, v1) :: mapDelete rest k

/-- The keys of an association list, in order. -/
def mapKeys {α : Type} : List (String × α) → List String
  | [] => []
  | (k, _) :: rest => k :: mapKeys rest

/-! ### The order manager (OrderManagerImpl)

The manager mutates two Maps (id to order record, id to overlay handle)
and produces side effects: calls into the host chart and notifications to
the registered callbacks.  Those effects are modelled as an emission trace
returned next to the new state, in the order the source performs them.
The callback fan-out of notifyCallbacks is uniform over the registered
callback list, so one trace entry stands for the notification. -/

/-- The CreateOrderOptions interface of src/orders/types.ts.  The fields
that the TypeScript interface requires are still `Option` here because
validateOrder checks their runtime presence, which the static types do
not guarantee. -/
structure CreateOrderOptions where
  id : Option String := none
  type : Option OrderType := none
  side : Option OrderSide := none
  price : Option ℚ := none
  quantity : Option ℚ := none
  symbol : Option String := none
  status : Option OrderStatus := none
  text : Option String := none
  entryPrice : Option ℚ := none
  stopLoss : Option ℚ := none
  takeProfit : Option ℚ := none
  customData : Option Json := none

/-- One observable side effect of the manager, in trace order:
host-chart overlay calls, callback notifications, and the console log of
handleOrderDragEnd. -/
inductive Emission where
  | hostCreateOverlay (orderId : String) (price : ℚ) (timestamp : ℚ) : Emission
  | hostOverrideOverlay (overlayId : String) (price : ℚ) (timestamp : ℚ) : Emission
  | hostRemoveOverlay (overlayId : String) : Emission
  | notifyEvent (orderId : String) (event : OrderEvent) (order : TradingOrder) : Emission
  | notifyPriceChange (orderId : String) (newPrice oldPrice : ℚ) : Emission
  | notifyCancel (orderId : String) : Emission
  | notifyClick (orderId : String) : Emission
  | consoleLog (orderId : String) (price : ℚ) : Emission

/-- The mutable state of OrderManagerImpl: the two Maps, whether a chart
instance is attached (`this.chart` may be null), and the current price. -/
structure ManagerState where
  orders : List (String × TradingOrder) := []
  overlayIds : List (String × String) := []
  hasChart : Bool := true
  currentPrice : ℚ := 0

/-- OrderManagerImpl.createOrderOverlay: with no chart attached it does
nothing; otherwise it asks the host to create the overlay primitive
anchored at (price, timestamp) and, when the host returns a truthy string
handle, binds the order id to that handle.  The host return value is the
`hostHandle` parameter.  Returns the new overlayIds map and the trace. -/
def createOrderOverlay (s : ManagerState) (order : TradingOrder)
    (hostHandle : Option String) : List (String × String) × List Emission :=
  if s.hasChart then
    let ems := [Emission.hostCreateOverlay order.id order.price order.timestamp]
    match hostHandle with
    | some h => if h = "" then (s.overlayIds, ems) else (mapSet s.overlayIds order.id h, ems)
    | none => (s.overlayIds, ems)
  else (s.overlayIds, [])

/-- The order record literal that OrderManagerImpl.addOrder builds, for
the case in which validation has established that the required fields are
present.  `orderId` is the already resolved identifier and `now` the
Date.now() timestamp. -/
def buildOrder (opts : CreateOrderOptions) (ty : OrderType) (sd : OrderSide)
    (p q : ℚ) (sym : String) (orderId : String) (now : ℚ) : TradingOrder :=
  { id := orderId, type := ty, side := sd, price := p, quantity := q, symbol := sym,
    status := opts.status.getD OrderStatus.pending, timestamp := now,
    text := opts.text, entryPrice := opts.entryPrice, stopLoss := opts.stopLoss,
    takeProfit := opts.takeProfit, customData := opts.customData }

/-- The draft that OrderManagerImpl.addOrder hands to validateOrder: the
constructed order object, id resolved and status defaulted, with the
runtime-checked fields still possibly absent. -/
def draftOf (opts : CreateOrderOptions) (orderId : String) : OrderDraft :=
  { id := some orderId, type := opts.type, side := opts.side, price := opts.price,
    quantity := opts.quantity, symbol := opts.symbol,
    status := some (opts.status.getD OrderStatus.pending) }

/-- OrderManagerImpl.addOrder.  The identifier falls back to a generated
one through `orderOptions.id || generateOrderId()` (the nondeterministic
generator is the `genId` parameter, Date.now() is `now`, and the host
handle returned by createOverlay is `hostHandle`).  The constructed order
is validated; a non-empty error list throws, which in the source happens
before any mutation.  Otherwise the order is stored, the overlay created
and the `created` event fired, and the id returned. -/
def addOrder (s : ManagerState) (opts : CreateOrderOptions) (genId : String)
    (now : ℚ) (hostHandle : Option String) :
    Except String (ManagerState × String × List Emission) :=
  let orderId := jsOrStr opts.id genId
  let errors := validateOrder (draftOf opts orderId)
  if 0 < errors.length then
    Except.error ("Invalid order: " ++ String.intercalate ", " errors)
  else
    match opts.type, opts.side, opts.price, opts.quantity, opts.symbol with
    | some ty, some sd, some p, some q, some sym =>
        let order := buildOrder opts ty sd p q sym orderId now
        let s1 : ManagerState := { s with orders := mapSet s.orders orderId order }
        let co := createOrderOverlay s1 order hostHandle
        Except.ok ({ s1 with overlayIds := co.1 }, orderId,
          co.2 ++ [Emission.notifyEvent orderId OrderEvent.created order])
    | _, _, _, _, _ => Except.error "unreachable: validation passed with a missing field"

/-- A caller observing addOrder: the source throws before any mutation,
so on the error path the state is the pre-call state and the trace is
empty. -/
def addOrderRun (s : ManagerState) (opts : CreateOrderOptions) (genId : String)
    (now : ℚ) (hostHandle : Option String) :
    ManagerState × Except String String × List Emission :=
  match addOrder s opts genId now hostHandle with
  | Except.ok (s1, orderId, ems) => (s1, Except.ok orderId, ems)
  | Except.error msg => (s, Except.error msg, [])

/-- OrderManagerImpl.removeOrder: a no-op for an unknown id; otherwise it
first removes the overlay (host call only when a truthy handle is bound
and a chart is attached), then deletes the entries of both Maps, then
fires `cancelled` with the order fetched before the removal. -/
def removeOrder (s : ManagerState) (orderId : String) : ManagerState × List Emission :=
  match mapGet s.orders orderId with
  | none => (s, [])
  | some order =>
      let hostEms :=
        match mapGet s.overlayIds orderId with
        | some h => if h ≠ "" ∧ s.hasChart then [Emission.hostRemoveOverlay h] else []
        | none => []
      ({ s with orders := mapDelete s.orders orderId,
                overlayIds := mapDelete s.overlayIds orderId },
       hostEms ++ [Emission.notifyEvent orderId OrderEvent.cancelled order])

/-- OrderManagerImpl.getAllOrders: the Map values in insertion order,
sorted by sortOrders. -/
def getAllOrders (s : ManagerState) : List TradingOrder :=
  sortOrders (s.orders.map Prod.snd)

/-- OrderManagerImpl.handleOrderDragEnd: the body only logs the order id
and the final price to the console; it touches no state and notifies no
registered callback. -/
def handleOrderDragEnd (s : ManagerState) (orderId : String) (finalPrice : ℚ) :
    ManagerState × List Emission :=
  (s, [Emission.consoleLog orderId finalPrice])

/-! ### Overlay pointer handlers (src/orders/overlays/order-overlay.ts) -/

/-- onPressedMoveStart of the trading_order overlay template: the host
asks whether the drag may start; the answer is no for a missing payload
or a non-draggable order, yes otherwise. -/
def onPressedMoveStart (extendData : Option TradingOrder) : Bool :=
  match extendData with
  | none => false
  | some orderData => if ¬ isOrderDraggable orderData then false else true

/-- Modelled from the spec: the drag-end subscription entry point.  The
ChartPro interface of src/types.ts declares
`onOrderDragEnd(callback: (orderId, finalPrice) => void)`, but the class
implementing that interface is not among the provided sources; per the
spec, the pressed-move-end phase fires a dragEnd notification carrying
the order id and the settled price to every registered drag-end
subscriber.  A subscriber is an opaque token; a delivery is the pair of
the subscriber and the carried payload. -/
def dispatchDragEnd (subscribers : List String) (orderId : String) (finalPrice : ℚ) :
    List (String × String × ℚ) :=
  subscribers.map (fun sub => (sub, orderId, finalPrice))

/-- onPressedMoveEnd of the trading_order overlay template, composed with
the drag-end dispatch: a missing payload answers false and delivers
nothing; otherwise the handler reports the order id and its current price
to the drag-end path and answers true.  The delivery fan-out is the
spec-modelled `dispatchDragEnd`. -/
def onPressedMoveEnd (subscribers : List String) (extendData : Option TradingOrder) :
    Bool × List (String × String × ℚ) :=
  match extendData with
  | none => (false, [])
  | some orderData => (true, dispatchDragEnd subscribers orderData.id orderData.price)

/-! ### Themes (src/orders/themes.ts)

Theme values are JavaScript objects whose keys may be present or absent,
which the spread operator observes; every level is therefore a record of
`Option` fields.  A full theme such as lightTheme or darkTheme has every
side and type key present. -/

/-- Line style enumeration of the OrderStyle interface. -/
inductive LineStyleKind where
  | solid | dashed | dotted
deriving DecidableEq

/-- An OrderStyle object: each style field may be present or absent. -/
structure StyleObj where
  lineColor : Option String := none
  textColor : Option String := none
  backgroundColor : Option String := none
  lineWidth : Option ℚ := none
  lineStyle : Option LineStyleKind := none
  fontSize : Option ℚ := none
  showCancelButton : Option Bool := none
  draggable : Option Bool := none
deriving DecidableEq

/-- One side of a theme: an object whose keys are the five order types,
each key possibly absent (a partial override usually names only some). -/
structure SideThemeObj where
  entry : Option StyleObj := none
  limit : Option StyleObj := none
  stopLoss : Option StyleObj := none
  takeProfit : Option StyleObj := none
  market : Option StyleObj := none
deriving DecidableEq

/-- A full OrderTheme: both side keys present. -/
structure ThemeObj where
  buy : SideThemeObj
  sell : SideThemeObj
deriving DecidableEq

/-- A Partial OrderTheme: either side key may be absent. -/
structure PartialThemeObj where
  buy : Option SideThemeObj := none
  sell : Option SideThemeObj := none
deriving DecidableEq

/-- One key of the JavaScript spread `{...base, ...custom}` at the side
level: a key present in the custom object overrides the base key with the
custom value as a whole. -/
def spreadStyleKey (b c : Option StyleObj) : Option StyleObj :=
  match c with
  | some s => some s
  | none => b

/-- The JavaScript spread `{...baseSide, ...customSide}` over the five
type keys of one side. -/
def spreadSide (b c : SideThemeObj) : SideThemeObj :=
  { entry := spreadStyleKey b.entry c.entry,
    limit := spreadStyleKey b.limit c.limit,
    stopLoss := spreadStyleKey b.stopLoss c.stopLoss,
    takeProfit := spreadStyleKey b.takeProfit c.takeProfit,
    market := spreadStyleKey b.market c.market }

/-- Spreading a possibly absent side object: spreading `undefined` is a
no-op. -/
def spreadSideOpt (b : SideThemeObj) (c : Option SideThemeObj) : SideThemeObj :=
  match c with
  | some cs => spreadSide b cs
  | none => b

/-- mergeThemes from src/orders/themes.ts:
`{ buy: {...base.buy, ...custom.buy}, sell: {...base.sell, ...custom.sell} }`. -/
def mergeThemes (baseTheme : ThemeObj) (customTheme : PartialThemeObj) : ThemeObj :=
  { buy := spreadSideOpt baseTheme.buy customTheme.buy,
    sell := spreadSideOpt baseTheme.sell customTheme.sell }

/-- OrderManagerImpl.setTheme: `this.theme = { ...this.theme, ...theme }`,
a spread at the top level only, so a side key present in the override
replaces that whole side of the current theme. -/
def setThemeMerge (current : ThemeObj) (customTheme : PartialThemeObj) : ThemeObj :=
  { buy := match customTheme.buy with | some b => b | none => current.buy,
    sell := match customTheme.sell with | some b => b | none => current.sell }

/-! ### Persistence (src/orders/persistence.ts)

exportOrders is `JSON.stringify(orders, null, 2)` and importOrders is
`JSON.parse` followed by an Array.isArray check that returns the parsed
entries verbatim.  Stringify and parse of the standard library are
modelled at the level of JSON trees: exportOrders produces the tree whose
text stringify would print, importOrders consumes the tree that parse
recovers from that text; the exact round trip between a tree and its
printed text is the JSON contract of the host platform.  Stringify omits
object properties whose value is `undefined`, which is why an absent
optional field produces no key.  The typed reading of an imported entry,
`jsonToOrder`, models the subsequent use of the untyped entry as a
TradingOrder. -/

/-- The JSON object property of an optional value: present values encode
to one property, `undefined` values are omitted by stringify. -/
def optField (k : String) (v : Option Json) : List (String × Json) :=
  match v with
  | some j => [(k, j)]
  | none => []

/-- The wire name of an order type. -/
def orderTypeKey (t : OrderType) : String :=
  match t with
  | OrderType.market => "market"
  | OrderType.limit => "limit"
  | OrderType.stop_loss => "stop_loss"
  | OrderType.take_profit => "take_profit"
  | OrderType.entry => "entry"

/-- The wire name of an order side. -/
def orderSideKey (sd : OrderSide) : String :=
  match sd with
  | OrderSide.buy => "buy"
  | OrderSide.sell => "sell"

/-- The wire name of an order status. -/
def orderStatusKey (st : OrderStatus) : String :=
  match st with
  | OrderStatus.pending => "pending"
  | OrderStatus.filled => "filled"
  | OrderStatus.cancelled => "cancelled"
  | OrderStatus.partially_filled => "partially_filled"

/-- Reading an order type back from its wire name. -/
def keyToOrderType (s : String) : Option OrderType :=
  if s = "market" then some OrderType.market
  else if s = "limit" then some OrderType.limit
  else if s = "stop_loss" then some OrderType.stop_loss
  else if s = "take_profit" then some OrderType.take_profit
  else if s = "entry" then some OrderType.entry
  else none

/-- Reading an order side back from its wire name. -/
def keyToOrderSide (s : String) : Option OrderSide :=
  if s = "buy" then some OrderSide.buy
  else if s = "sell" then some OrderSide.sell
  else none

/-- Reading an order status back from its wire name. -/
def keyToOrderStatus (s : String) : Option OrderStatus :=
  if s = "pending" then some OrderStatus.pending
  else if s = "filled" then some OrderStatus.filled
  else if s = "cancelled" then some OrderStatus.cancelled
  else if s = "partially_filled" then some OrderStatus.partially_filled
  else none

/-- The JSON object stringify produces from an in-memory TradingOrder:
required fields in property order of the construction site, optional
fields only when present. -/
def orderToJson (o : TradingOrder) : Json :=
  Json.obj
    ([("id", Json.str o.id),
      ("type", Json.str (orderTypeKey o.type)),
      ("side", Json.str (orderSideKey o.side)),
      ("price", Json.num o.price),
      ("quantity", Json.num o.quantity),
      ("symbol", Json.str o.symbol),
      ("status", Json.str (orderStatusKey o.status)),
      ("timestamp", Json.num o.timestamp)]
    ++ optField "text" (o.text.map Json.str)
    ++ optField "entryPrice" (o.entryPrice.map Json.num)
    ++ optField "stopLoss" (o.stopLoss.map Json.num)
    ++ optField "takeProfit" (o.takeProfit.map Json.num)
    ++ optField "pnl" (o.pnl.map Json.num)
    ++ optField "unrealizedPnl" (o.unrealizedPnl.map Json.num)
    ++ optField "fees" (o.fees.map Json.num)
    ++ optField "fillPrice" (o.fillPrice.map Json.num)
    ++ optField "fillQuantity" (o.fillQuantity.map Json.num)
    ++ optField "customData" o.customData)

/-- Reading a string-valued property. -/
def decodeStr (x : Option Json) : Option String :=
  match x with
  | some (Json.str s) => some s
  | _ => none

/-- Reading a number-valued property. -/
def decodeNum (x : Option Json) : Option ℚ :=
  match x with
  | some (Json.num q) => some q
  | _ => none

/-- The typed reading of one imported entry as a TradingOrder: the use
the importing caller makes of the verbatim parsed object. -/
def jsonToOrder (j : Json) : Option TradingOrder :=
  match j with
  | Json.obj fields =>
      (decodeStr (mapGet fields "id")).bind fun i =>
      ((decodeStr (mapGet fields "type")).bind keyToOrderType).bind fun ty =>
      ((decodeStr (mapGet fields "side")).bind keyToOrderSide).bind fun sd =>
      (decodeNum (mapGet fields "price")).bind fun p =>
      (decodeNum (mapGet fields "quantity")).bind fun q =>
      (decodeStr (mapGet fields "symbol")).bind fun sym =>
      ((decodeStr (mapGet fields "status")).bind keyToOrderStatus).bind fun st =>
      (decodeNum (mapGet fields "timestamp")).bind fun ts =>
      some { id := i, type := ty, side := sd, price := p, quantity := q,
             symbol := sym, status := st, timestamp := ts,
             text := decodeStr (mapGet fields "text"),
             entryPrice := decodeNum (mapGet fields "entryPrice"),
             stopLoss := decodeNum (mapGet fields "stopLoss"),
             takeProfit := decodeNum (mapGet fields "takeProfit"),
             pnl := decodeNum (mapGet fields "pnl"),
             unrealizedPnl := decodeNum (mapGet fields "unrealizedPnl"),
             fees := decodeNum (mapGet fields "fees"),
             fillPrice := decodeNum (mapGet fields "fillPrice"),
             fillQuantity := decodeNum (mapGet fields "fillQuantity"),
             customData := mapGet fields "customData" }
  | _ => none

/-- OrderPersistence.exportOrders at the JSON-tree level: the array of the
serialized orders. -/
def exportOrders (orders : List TradingOrder) : Json :=
  Json.arr (orders.map orderToJson)

/-- OrderPersistence.importOrders at the JSON-tree level: a parsed array
is returned verbatim, anything else yields the empty list. -/
def importOrders (j : Json) : List Json :=
  match j with
  | Json.arr xs => xs
  | _ => []

/-! ### Claim-side predicates and concrete instances -/

/-- The failure condition enumerated by claim C1, read structurally off
the creation request: type, side or symbol missing (for the symbol also
empty, the falsy presence check of the source), or price or quantity not
a positive number. -/
def badRequest (opts : CreateOrderOptions) : Prop :=
  opts.type = none ∨ opts.side = none ∨ jsTruthyStr opts.symbol = false ∨
    validNum opts.price = false ∨ validNum opts.quantity = false

instance (opts : CreateOrderOptions) : Decidable (badRequest opts) :=
  decidable_of_iff
    (opts.type = none ∨ opts.side = none ∨ jsTruthyStr opts.symbol = false ∨
      validNum opts.price = false ∨ validNum opts.quantity = false) Iff.rfl

/-- A valid creation request for the witness of claim C1. -/
def c1opts : CreateOrderOptions :=
  { type := some OrderType.limit, side := some OrderSide.buy, price := some 50,
    quantity := some 2, symbol := some "BTCUSDT" }

/-- The buy order of the concrete instance of claim C2: entry price 100,
quantity 1, status filled. -/
def c2buy : TradingOrder :=
  { id := "b1", type := OrderType.entry, side := OrderSide.buy, price := 100,
    quantity := 1, symbol := "BTCUSDT", status := OrderStatus.filled,
    timestamp := 0, entryPrice := some 100 }

/-- The sell order of the concrete instance of claim C2. -/
def c2sell : TradingOrder :=
  { id := "s1", type := OrderType.entry, side := OrderSide.sell, price := 100,
    quantity := 1, symbol := "BTCUSDT", status := OrderStatus.filled,
    timestamp := 0, entryPrice := some 100 }

/-- A filled buy order with no entry price, for the counterexample to
claim C3: the entry reference falls back to the price 100. -/
def c3order : TradingOrder :=
  { id := "c3", type := OrderType.entry, side := OrderSide.buy, price := 100,
    quantity := 1, symbol := "BTCUSDT", status := OrderStatus.filled,
    timestamp := 0 }

/-- A pending order with no entry price and fees 5, for the witness of
the amended claim C3. -/
def c3pending : TradingOrder :=
  { id := "c3w", type := OrderType.limit, side := OrderSide.sell, price := 40,
    quantity := 2, symbol := "BTCUSDT", status := OrderStatus.pending,
    timestamp := 0, fees := some 5 }

/-- An entry-type order at price 100, for the concrete instance of
claim C4. -/
def c4entry : TradingOrder :=
  { id := "e1", type := OrderType.entry, side := OrderSide.buy, price := 100,
    quantity := 1, symbol := "BTCUSDT", status := OrderStatus.pending,
    timestamp := 0 }

/-- A limit-type order at the same price 100, for the concrete instance
of claim C4. -/
def c4limit : TradingOrder :=
  { id := "l1", type := OrderType.limit, side := OrderSide.buy, price := 100,
    quantity := 1, symbol := "BTCUSDT", status := OrderStatus.pending,
    timestamp := 0 }

/-- A pending order for the witness of claim C5. -/
def c5pending : TradingOrder :=
  { id := "p1", type := OrderType.limit, side := OrderSide.buy, price := 10,
    quantity := 1, symbol := "BTCUSDT", status := OrderStatus.pending,
    timestamp := 0 }

/-- A pending order being dragged, for the witness of claim C6. -/
def c6order : TradingOrder :=
  { id := "d1", type := OrderType.stop_loss, side := OrderSide.sell, price := 43000,
    quantity := 1, symbol := "BTCUSDT", status := OrderStatus.pending,
    timestamp := 0 }

/-- A full style entry of the base theme of the counterexample to
claim C7. -/
def c7baseStyle : StyleObj :=
  { lineColor := some "#111111", textColor := some "#222222",
    backgroundColor := some "#000000", lineWidth := some 1,
    lineStyle := some LineStyleKind.solid, fontSize := some 12,
    showCancelButton := some true, draggable := some true }

/-- One full side of the base theme of the counterexample to claim C7. -/
def c7baseSide : SideThemeObj :=
  { entry := some c7baseStyle, limit := some c7baseStyle,
    stopLoss := some c7baseStyle, takeProfit := some c7baseStyle,
    market := some c7baseStyle }

/-- The full base theme of the counterexample to claim C7. -/
def c7base : ThemeObj :=
  { buy := c7baseSide, sell := c7baseSide }

/-- The partial override of the counterexample to claim C7: only the
lineColor of the buy entry style is given. -/
def c7custom : PartialThemeObj :=
  { buy := some { entry := some { lineColor := some "#abcdef" } } }

/-- An order stored under id o1, for the witness of claim C8. -/
def c8order : TradingOrder :=
  { id := "o1", type := OrderType.limit, side := OrderSide.buy, price := 5,
    quantity := 1, symbol := "BTCUSDT", status := OrderStatus.pending,
    timestamp := 0 }

/-- A store holding one order with one overlay binding, for the witness
of claim C8. -/
def c8state : ManagerState :=
  { orders := [("o1", c8order)], overlayIds := [("o1", "ov1")] }

/-- The order already stored under the duplicated id, for the witness of
claim C10. -/
def c10old : TradingOrder :=
  { id := "dup", type := OrderType.limit, side := OrderSide.buy, price := 5,
    quantity := 1, symbol := "BTCUSDT", status := OrderStatus.pending,
    timestamp := 0 }

/-- A store already holding the id dup, for the witness of claim C10. -/
def c10state : ManagerState :=
  { orders := [("dup", c10old)], overlayIds := [("dup", "ovOld")] }

/-- A second creation request reusing the id dup, for the witness of
claim C10. -/
def c10opts : CreateOrderOptions :=
  { id := some "dup", type := some OrderType.market, side := some OrderSide.sell,
    price := some 7, quantity := some 3, symbol := some "ETHUSDT" }

/-! ## Theorems

First the Map model lemmas, then the claims. -/

theorem mapGet_eq_none_of_not_mem {α : Type} {m : List (String × α)} {k : String}
    (h : k ∉ mapKeys m) : mapGet m k = none := by
  induction m with
  | nil => rfl
  | cons p rest ih =>
      obtain ⟨k1, v⟩ := p
      simp only [mapKeys, List.mem_cons] at h
      push_neg at h
      rw [mapGet, if_neg (fun he => h.1 he.symm), ih h.2]

theorem mapGet_mapSet_self {α : Type} (m : List (String × α)) (k : String) (v : α) :
    mapGet (mapSet m k v) k = some v := by
  induction m with
  | nil => simp [mapSet, mapGet]
  | cons p rest ih =>
      obtain ⟨k1, v1⟩ := p
      by_cases h : k1 = k
      · simp [mapSet, mapGet, h]
      · simp [mapSet, mapGet, h, ih]

theorem length_mapSet_of_mem {α : Type} {m : List (String × α)} {k : String} {w : α}
    (h : mapGet m k = some w) (v : α) : (mapSet m k v).length = m.length := by
  induction m with
  | nil => simp [mapGet] at h
  | cons p rest ih =>
      obtain ⟨k1, v1⟩ := p
      by_cases hk : k1 = k
      · simp [mapSet, hk]
      · simp only [mapGet, if_neg hk] at h
        simp [mapSet, hk, ih h]

theorem mem_mapKeys_mapSet {α : Type} {m : List (String × α)} {k x : String} {v : α}
    (h : x ∈ mapKeys (mapSet m k v)) : x ∈ mapKeys m ∨ x = k := by
  induction m with
  | nil => exact Or.inr (by simpa [mapSet, mapKeys] using h)
  | cons p rest ih =>
      obtain ⟨k1, v1⟩ := p
      by_cases hk : k1 = k
      · subst hk
        simp only [mapSet, if_pos rfl, mapKeys, List.mem_cons] at h ⊢
        rcases h with h | h
        · exact Or.inr h
        · exact Or.inl (Or.inr h)
      · simp only [mapSet, if_neg hk, mapKeys, List.mem_cons] at h ⊢
        rcases h with h | h
        · exact Or.inl (Or.inl h)
        · rcases ih h with h2 | h2
          · exact Or.inl (Or.inr h2)
          · exact Or.inr h2

theorem nodup_mapKeys_mapSet {α : Type} {m : List (String × α)} (k : String) (v : α)
    (h : (mapKeys m).Nodup) : (mapKeys (mapSet m k v)).Nodup := by
  induction m with
  | nil => simp [mapSet, mapKeys]
  | cons p rest ih =>
      obtain ⟨k1, v1⟩ := p
      simp only [mapKeys, List.nodup_cons] at h
      by_cases hk : k1 = k
      · subst hk
        simpa [mapSet, mapKeys, List.nodup_cons] using h
      · simp only [mapSet, if_neg hk, mapKeys, List.nodup_cons]
        refine ⟨fun hmem => ?_, ih h.2⟩
        rcases mem_mapKeys_mapSet hmem with h2 | h2
        · exact h.1 h2
        · exact hk h2

theorem mapGet_mapDelete_self {α : Type} {m : List (String × α)} (k : String)
    (h : (mapKeys m).Nodup) : mapGet (mapDelete m k) k = none := by
  induction m with
  | nil => rfl
  | cons p rest ih =>
      obtain ⟨k1, v1⟩ := p
      simp only [mapKeys, List.nodup_cons] at h
      by_cases hk : k1 = k
      · subst hk
        simp only [mapDelete, if_pos rfl]
        exact mapGet_eq_none_of_not_mem h.1
      · simp only [mapDelete, if_neg hk, mapGet, if_neg hk]
        exact ih h.2

theorem length_mapDelete_of_mem {α : Type} {m : List (String × α)} {k : String} {w : α}
    (h : mapGet m k = some w) : (mapDelete m k).length + 1 = m.length := by
  induction m with
  | nil => simp [mapGet] at h
  | cons p rest ih =>
      obtain ⟨k1, v1⟩ := p
      by_cases hk : k1 = k
      · simp [mapDelete, hk]
      · simp only [mapGet, if_neg hk] at h
        simp [mapDelete, hk, ih h]

/-- Claim C2: calculatePnL returns unrealizedPnl = 0 unless the status is
filled or partially_filled; in those statuses the unrealized PnL is
(referencePrice minus the entry price) times the effective quantity for a
buy order and its negation for a sell order, where the entry price is the
entryPrice of the order when that field carries a truthy (present,
nonzero) value and order.price otherwise, and the effective quantity is
likewise fillQuantity when truthy else quantity.  In particular a filled
buy with entry price 100 and quantity 1 at reference price 110 yields 10,
and the same sell yields minus 10. -/
theorem calculatePnL_unrealized_spec (o : TradingOrder) (ref : ℚ) :
    ((o.status ≠ OrderStatus.filled ∧ o.status ≠ OrderStatus.partially_filled) →
      (calculatePnL o ref).unrealizedPnl = 0) ∧
    ((o.status = OrderStatus.filled ∨ o.status = OrderStatus.partially_filled) →
      (calculatePnL o ref).unrealizedPnl =
        (match o.side with
         | OrderSide.buy =>
             (ref - jsOrQ o.entryPrice o.price) * jsOrQ o.fillQuantity o.quantity
         | OrderSide.sell =>
             -((ref - jsOrQ o.entryPrice o.price) * jsOrQ o.fillQuantity o.quantity))) ∧
    (calculatePnL c2buy 110).unrealizedPnl = 10 ∧
    (calculatePnL c2sell 110).unrealizedPnl = -10 := by
  refine ⟨?_, ?_, by norm_num [calculatePnL, c2buy, jsOrQ],
    by norm_num [calculatePnL, c2sell, jsOrQ] <;> decide⟩
  · intro h
    simp [calculatePnL, h.1, h.2]
  · intro h
    cases hs : o.side <;> simp [calculatePnL, h, hs] <;> first | ring | decide

/-- Witness for claim C2: the theorem applied to the concrete filled buy
order, its status hypothesis discharged. -/
theorem calculatePnL_unrealized_spec_witness :
    (c2buy.status = OrderStatus.filled ∨ c2buy.status = OrderStatus.partially_filled) ∧
    (calculatePnL c2buy 110).unrealizedPnl =
      (match c2buy.side with
       | OrderSide.buy =>
           (110 - jsOrQ c2buy.entryPrice c2buy.price) * jsOrQ c2buy.fillQuantity c2buy.quantity
       | OrderSide.sell =>
           -((110 - jsOrQ c2buy.entryPrice c2buy.price) * jsOrQ c2buy.fillQuantity c2buy.quantity)) :=
  ⟨Or.inl rfl, (calculatePnL_unrealized_spec c2buy 110).2.1 (Or.inl rfl)⟩

/-- Counterexample to claim C3: a filled buy order with no entryPrice,
price 100 and quantity 1 has unrealizedPnl 10 at reference price 110, not
0, and its netPnl is 10, not minus fees: the source falls back to
order.price as the entry reference instead of returning zero PnL. -/
theorem calculatePnL_no_entry_counterexample :
    c3order.entryPrice = none ∧
    (calculatePnL c3order 110).unrealizedPnl = 10 ∧
    ¬ ((calculatePnL c3order 110).unrealizedPnl = 0 ∧
        (calculatePnL c3order 110).realizedPnl = 0 ∧
        (calculatePnL c3order 110).netPnl = -(jsOrQ c3order.fees 0)) := by
  norm_num [calculatePnL, c3order, jsOrQ]

/-- Amended claim C3: an order with no entryPrice is computed against
order.price as the entry reference.  Its PnL is zero, netPnl = minus
fees, whenever the status is neither filled nor partially_filled; in
those two statuses the unrealized PnL is (reference minus order.price)
times the effective quantity for a buy and the reverse difference for a
sell. -/
theorem calculatePnL_no_entry_amended (o : TradingOrder) (ref : ℚ)
    (hE : o.entryPrice = none) :
    ((o.status ≠ OrderStatus.filled ∧ o.status ≠ OrderStatus.partially_filled) →
      (calculatePnL o ref).unrealizedPnl = 0 ∧
      (calculatePnL o ref).realizedPnl = 0 ∧
      (calculatePnL o ref).netPnl = -(jsOrQ o.fees 0)) ∧
    ((o.status = OrderStatus.filled ∨ o.status = OrderStatus.partially_filled) →
      (calculatePnL o ref).unrealizedPnl =
        (match o.side with
         | OrderSide.buy => (ref - o.price) * jsOrQ o.fillQuantity o.quantity
         | OrderSide.sell => (o.price - ref) * jsOrQ o.fillQuantity o.quantity)) := by
  constructor
  · intro h
    cases hf : o.fillPrice <;>
      simp [calculatePnL, h.1, h.2, hE, hf, jsOrQ]
  · intro h
    cases hs : o.side <;> simp [calculatePnL, h, hs, hE, jsOrQ]

/-- Witness for the amended claim C3: the theorem applied to a concrete
pending sell order with fees 5, hypotheses discharged. -/
theorem calculatePnL_no_entry_amended_witness :
    c3pending.entryPrice = none ∧
    (calculatePnL c3pending 110).netPnl = -(jsOrQ c3pending.fees 0) :=
  ⟨rfl, ((calculatePnL_no_entry_amended c3pending 110 rfl).1 (by decide)).2.2⟩

/-- Claim C5: the pressed-move-start query of the order overlay answers
yes exactly when the status of the order carried by the overlay payload
is pending; any other status (and a missing payload) vetoes the drag. -/
theorem onPressedMoveStart_iff_pending :
    (∀ o : TradingOrder,
      (onPressedMoveStart (some o) = true ↔ o.status = OrderStatus.pending)) ∧
    onPressedMoveStart none = false := by
  refine ⟨fun o => ⟨fun h => ?_, fun h => ?_⟩, rfl⟩
  · by_contra hne
    simp [onPressedMoveStart, isOrderDraggable, hne] at h
  · simp [onPressedMoveStart, isOrderDraggable, h]

/-- Witness for claim C5: the query on a concrete pending order answers
yes, through the iff of the theorem. -/
theorem onPressedMoveStart_iff_pending_witness :
    onPressedMoveStart (some c5pending) = true :=
  (onPressedMoveStart_iff_pending.1 c5pending).mpr rfl

/-- Claim C6 (dispatch modelled from the spec): when pressed-move-end
occurs for an order, the handler accepts the event and a dragEnd delivery
carrying the order id and the settled price reaches every registered
drag-end subscriber. -/
theorem pressedMoveEnd_delivers_dragEnd (subscribers : List String)
    (o : TradingOrder) (sub : String) (hsub : sub ∈ subscribers) :
    (onPressedMoveEnd subscribers (some o)).1 = true ∧
    (sub, o.id, o.price) ∈ (onPressedMoveEnd subscribers (some o)).2 := by
  refine ⟨rfl, ?_⟩
  simp only [onPressedMoveEnd, dispatchDragEnd, List.mem_map]
  exact ⟨sub, hsub, rfl⟩

/-- Witness for claim C6: one registered subscriber receives the delivery
for a concrete dragged order. -/
theorem pressedMoveEnd_delivers_dragEnd_witness :
    ("ui", c6order.id, c6order.price) ∈ (onPressedMoveEnd ["ui"] (some c6order)).2 :=
  (pressedMoveEnd_delivers_dragEnd ["ui"] c6order "ui" (List.mem_singleton.mpr rfl)).2

/-- Claim C4: getAllOrders returns a permutation of the stored orders
that is sorted by the priority table (entry before market before limit
before stop_loss before take_profit) and, within equal priority, by
ascending price; in particular an entry-type order sorts before a
limit-type order of the same price. -/
theorem getAllOrders_sorted :
    (∀ s : ManagerState,
      List.Perm (getAllOrders s) (s.orders.map Prod.snd) ∧
      List.Sorted orderLE (getAllOrders s)) ∧
    sortOrders [c4limit, c4entry] = [c4entry, c4limit] := by
  refine ⟨fun s => ⟨List.perm_insertionSort orderLE _,
    List.sorted_insertionSort orderLE _⟩, ?_⟩
  simp [sortOrders, orderLE, getOrderPriority, c4entry, c4limit]

/-- Counterexample to claim C7: merging a partial override that sets only
the lineColor of the buy entry style erases the textColor that the base
theme had on that entry, instead of retaining it: the spread of
mergeThemes replaces whole (side, type) entries. -/
theorem mergeThemes_counterexample :
    (mergeThemes c7base c7custom).buy.entry.bind StyleObj.lineColor = some "#abcdef" ∧
    c7base.buy.entry.bind StyleObj.textColor = some "#222222" ∧
    (mergeThemes c7base c7custom).buy.entry.bind StyleObj.textColor ≠
      c7base.buy.entry.bind StyleObj.textColor := by
  decide

/-- Amended claim C7: merging a partial theme into a base theme replaces
whole (side, type) style entries: every entry present in the partial
becomes the merged entry verbatim (style fields absent from it are
dropped, not retained from base), while entries of types the partial does
not mention within a present side, and both sides when the partial omits
them, are retained from the base theme. -/
theorem mergeThemes_amended (base : ThemeObj) (custom : PartialThemeObj) :
    ((mergeThemes base custom).buy.entry =
      (match custom.buy.bind SideThemeObj.entry with
       | some e => some e
       | none => base.buy.entry)) ∧
    ((mergeThemes base custom).buy.limit =
      (match custom.buy.bind SideThemeObj.limit with
       | some e => some e
       | none => base.buy.limit)) ∧
    ((mergeThemes base custom).buy.stopLoss =
      (match custom.buy.bind SideThemeObj.stopLoss with
       | some e => some e
       | none => base.buy.stopLoss)) ∧
    ((mergeThemes base custom).buy.takeProfit =
      (match custom.buy.bind SideThemeObj.takeProfit with
       | some e => some e
       | none => base.buy.takeProfit)) ∧
    ((mergeThemes base custom).buy.market =
      (match custom.buy.bind SideThemeObj.market with
       | some e => some e
       | none => base.buy.market)) ∧
    ((mergeThemes base custom).sell.entry =
      (match custom.sell.bind SideThemeObj.entry with
       | some e => some e
       | none => base.sell.entry)) ∧
    ((mergeThemes base custom).sell.limit =
      (match custom.sell.bind SideThemeObj.limit with
       | some e => some e
       | none => base.sell.limit)) ∧
    ((mergeThemes base custom).sell.stopLoss =
      (match custom.sell.bind SideThemeObj.stopLoss with
       | some e => some e
       | none => base.sell.stopLoss)) ∧
    ((mergeThemes base custom).sell.takeProfit =
      (match custom.sell.bind SideThemeObj.takeProfit with
       | some e => some e
       | none => base.sell.takeProfit)) ∧
    ((mergeThemes base custom).sell.market =
      (match custom.sell.bind SideThemeObj.market with
       | some e => some e
       | none => base.sell.market)) ∧
    (custom.buy = none → (mergeThemes base custom).buy = base.buy) ∧
    (custom.sell = none → (mergeThemes base custom).sell = base.sell) := by
  obtain ⟨cb, cs⟩ := custom
  cases cb <;> cases cs <;>
    refine ⟨?_, ?_, ?_, ?_, ?_, ?_, ?_, ?_, ?_, ?_, ?_, ?_⟩ <;>
    first
      | rfl
      | (intro h; rfl)
      | (intro h; simp at h)

/-- Witness for the amended claim C7: the theorem applied to the concrete
base theme and override, the side-retention hypothesis discharged. -/
theorem mergeThemes_amended_witness :
    c7custom.sell = none ∧ (mergeThemes c7base c7custom).sell = c7base.sell :=
  ⟨rfl, (mergeThemes_amended c7base c7custom).2.2.2.2.2.2.2.2.2.2.2 rfl⟩

theorem mapGet_optField_self (k : String) (v : Option Json)
    (rest : List (String × Json)) (hrest : mapGet rest k = none) :
    mapGet (optField k v ++ rest) k = v := by
  cases v with
  | some j => simp [optField, mapGet]
  | none => simpa [optField] using hrest

theorem mapGet_optField_skip {k k1 : String} (h : ¬ k1 = k) (v : Option Json)
    (rest : List (String × Json)) :
    mapGet (optField k1 v ++ rest) k = mapGet rest k := by
  cases v with
  | some j => simp [optField, mapGet, h]
  | none => simp [optField]

theorem mapGet_optField_lone (k : String) (v : Option Json) :
    mapGet (optField k v) k = v := by
  cases v with
  | some j => simp [optField, mapGet]
  | none => rfl

theorem mapGet_optField_lone_skip {k k1 : String} (h : ¬ k1 = k) (v : Option Json) :
    mapGet (optField k1 v) k = none := by
  cases v with
  | some j => simp [optField, mapGet, h]
  | none => rfl

theorem decodeStr_map_str (x : Option String) : decodeStr (x.map Json.str) = x := by
  cases x <;> rfl

theorem decodeNum_map_num (x : Option ℚ) : decodeNum (x.map Json.num) = x := by
  cases x <;> rfl

theorem decodeStr_some_str (s : String) : decodeStr (some (Json.str s)) = some s := rfl

theorem decodeNum_some_num (q : ℚ) : decodeNum (some (Json.num q)) = some q := rfl

theorem keyToOrderType_orderTypeKey (t : OrderType) :
    keyToOrderType (orderTypeKey t) = some t := by
  cases t <;> rfl

theorem keyToOrderSide_orderSideKey (sd : OrderSide) :
    keyToOrderSide (orderSideKey sd) = some sd := by
  cases sd <;> rfl

theorem keyToOrderStatus_orderStatusKey (st : OrderStatus) :
    keyToOrderStatus (orderStatusKey st) = some st := by
  cases st <;> rfl

theorem jsonToOrder_orderToJson (o : TradingOrder) :
    jsonToOrder (orderToJson o) = some o := by
  obtain ⟨i, ty, sd, p, q, sym, st, ts, tx, ep, sl, tp, pn, up, fe, fp, fq, cd⟩ := o
  simp only [orderToJson, jsonToOrder, List.cons_append, List.nil_append]
  simp [mapGet, mapGet_optField_self, mapGet_optField_skip,
    mapGet_optField_lone, mapGet_optField_lone_skip,
    decodeStr_some_str, decodeNum_some_num, decodeStr_map_str, decodeNum_map_num,
    keyToOrderType_orderTypeKey, keyToOrderSide_orderSideKey,
    keyToOrderStatus_orderStatusKey]

/-- Claim C9: export followed by import is a round trip.  Exporting a
list of orders and importing the result yields entries that are
element-wise equal by value to the original orders (this model of orders
is the JSON-representable one, and no entry of an exported store lacks an
id, so no regeneration is involved). -/
theorem export_import_roundtrip (orders : List TradingOrder) :
    (importOrders (exportOrders orders)).map jsonToOrder = orders.map some := by
  simp only [exportOrders, importOrders, List.map_map]
  induction orders with
  | nil => rfl
  | cons o rest ih =>
      simp only [List.map_cons, List.map_map] at ih ⊢
      rw [Function.comp_apply, jsonToOrder_orderToJson, ih]

theorem validateOrder_eq_nil_iff (d : OrderDraft) :
    validateOrder d = [] ↔
      (d.type.isSome = true ∧ d.side.isSome = true ∧ validNum d.price = true ∧
        validNum d.quantity = true ∧ jsTruthyStr d.symbol = true) := by
  obtain ⟨di, ty, sd, p, q, sym, st⟩ := d
  cases ty <;> cases sd <;>
    cases hp : validNum p <;> cases hq : validNum q <;> cases hsym : jsTruthyStr sym <;>
      simp [validateOrder, hp, hq, hsym]

theorem not_badRequest_iff (opts : CreateOrderOptions) (orderId : String) :
    validateOrder (draftOf opts orderId) = [] ↔ ¬ badRequest opts := by
  rw [validateOrder_eq_nil_iff]
  simp only [draftOf]
  constructor
  · rintro ⟨h1, h2, h3, h4, h5⟩ hbad
    rcases hbad with h | h | h | h | h
    · rw [h] at h1; simp at h1
    · rw [h] at h2; simp at h2
    · rw [h5] at h; simp at h
    · rw [h3] at h; simp at h
    · rw [h4] at h; simp at h
  · intro hn
    simp only [badRequest, not_or] at hn
    obtain ⟨h1, h2, h3, h4, h5⟩ := hn
    refine ⟨?_, ?_, ?_, ?_, ?_⟩
    · cases hh : opts.type with
      | none => exact absurd hh h1
      | some _ => rfl
    · cases hh : opts.side with
      | none => exact absurd hh h2
      | some _ => rfl
    · cases hh : validNum opts.price with
      | false => exact absurd hh h4
      | true => rfl
    · cases hh : validNum opts.quantity with
      | false => exact absurd hh h5
      | true => rfl
    · cases hh : jsTruthyStr opts.symbol with
      | false => exact absurd hh h3
      | true => rfl

/-- Claim C1: a creation request with a missing type, side or symbol, or
with a price or quantity that is not a positive number, makes addOrder
fail with a validation error, the store unchanged and no event fired
(the source throws before any mutation, which the addOrderRun observer
records as the pre-call state and an empty trace); a request passing
those checks is inserted, with the id assigned when absent and the status
defaulting to pending, and the id is returned together with the fired
created event. -/
theorem addOrder_validation_spec (s : ManagerState) (opts : CreateOrderOptions)
    (genId : String) (now : ℚ) (hostHandle : Option String) :
    (badRequest opts →
      ∃ msg, addOrderRun s opts genId now hostHandle = (s, Except.error msg, [])) ∧
    (¬ badRequest opts →
      ∃ s1 ems ord,
        addOrderRun s opts genId now hostHandle =
          (s1, Except.ok (jsOrStr opts.id genId), ems) ∧
        mapGet s1.orders (jsOrStr opts.id genId) = some ord ∧
        some ord.type = opts.type ∧ some ord.side = opts.side ∧
        some ord.price = opts.price ∧ some ord.quantity = opts.quantity ∧
        some ord.symbol = opts.symbol ∧
        ord.status = opts.status.getD OrderStatus.pending ∧
        ord.id = jsOrStr opts.id genId ∧ ord.timestamp = now ∧
        Emission.notifyEvent (jsOrStr opts.id genId) OrderEvent.created ord ∈ ems) := by
  constructor
  · intro hbad
    have herr : validateOrder (draftOf opts (jsOrStr opts.id genId)) ≠ [] := fun h =>
      (not_badRequest_iff opts (jsOrStr opts.id genId)).mp h hbad
    have hpos : 0 < (validateOrder (draftOf opts (jsOrStr opts.id genId))).length :=
      List.length_pos.mpr herr
    exact ⟨"Invalid order: " ++
        String.intercalate ", " (validateOrder (draftOf opts (jsOrStr opts.id genId))),
      by simp only [addOrderRun, addOrder, if_pos hpos]⟩
  · intro hgood
    have hnil : validateOrder (draftOf opts (jsOrStr opts.id genId)) = [] :=
      (not_badRequest_iff opts (jsOrStr opts.id genId)).mpr hgood
    have hconj := (validateOrder_eq_nil_iff (draftOf opts (jsOrStr opts.id genId))).mp hnil
    simp only [draftOf] at hconj
    obtain ⟨h1, h2, h3, h4, h5⟩ := hconj
    obtain ⟨ty, hty⟩ := Option.isSome_iff_exists.mp h1
    obtain ⟨sd, hsd⟩ := Option.isSome_iff_exists.mp h2
    obtain ⟨p, hp⟩ : ∃ p, opts.price = some p := by
      cases hpp : opts.price with
      | none => rw [hpp] at h3; exact absurd h3 (by simp [validNum])
      | some v => exact ⟨v, rfl⟩
    obtain ⟨q, hq⟩ : ∃ q, opts.quantity = some q := by
      cases hqq : opts.quantity with
      | none => rw [hqq] at h4; exact absurd h4 (by simp [validNum])
      | some v => exact ⟨v, rfl⟩
    obtain ⟨sym, hsym⟩ : ∃ sym, opts.symbol = some sym := by
      cases hss : opts.symbol with
      | none => rw [hss] at h5; exact absurd h5 (by simp [jsTruthyStr])
      | some v => exact ⟨v, rfl⟩
    simp only [addOrderRun, addOrder, hnil, hty, hsd, hp, hq, hsym,
      List.length_nil, lt_self_iff_false, if_false]
    refine ⟨_, _, _, rfl, mapGet_mapSet_self _ _ _, rfl, rfl, rfl, rfl, rfl, rfl, rfl, rfl, ?_⟩
    simp

/-- Witness for claim C1: the theorem applied to a concrete valid
request against the empty store, the hypothesis discharged. -/
theorem addOrder_validation_spec_witness :
    ¬ badRequest c1opts ∧
    (∃ s1 ems ord,
      addOrderRun {} c1opts "gen1" 0 (some "ov1") =
        (s1, Except.ok (jsOrStr c1opts.id "gen1"), ems) ∧
      mapGet s1.orders (jsOrStr c1opts.id "gen1") = some ord ∧
      some ord.type = c1opts.type ∧ some ord.side = c1opts.side ∧
      some ord.price = c1opts.price ∧ some ord.quantity = c1opts.quantity ∧
      some ord.symbol = c1opts.symbol ∧
      ord.status = c1opts.status.getD OrderStatus.pending ∧
      ord.id = jsOrStr c1opts.id "gen1" ∧ ord.timestamp = 0 ∧
      Emission.notifyEvent (jsOrStr c1opts.id "gen1") OrderEvent.created ord ∈ ems) :=
  ⟨by decide, (addOrder_validation_spec {} c1opts "gen1" 0 (some "ov1")).2 (by decide)⟩

/-- Claim C8: removeOrder is idempotent on absent ids, a strict no-op;
for a present id it destroys the overlay binding first (any host call of
the trace precedes the event), deletes the record so that the store
shrinks by exactly one, and fires cancelled carrying the pre-removal
snapshot.  The Nodup hypotheses state the key uniqueness that the
JavaScript Maps guarantee. -/
theorem removeOrder_spec (s : ManagerState) (orderId : String) :
    (mapGet s.orders orderId = none → removeOrder s orderId = (s, [])) ∧
    (∀ ord, mapGet s.orders orderId = some ord →
      (mapKeys s.orders).Nodup → (mapKeys s.overlayIds).Nodup →
      mapGet (removeOrder s orderId).1.orders orderId = none ∧
      (removeOrder s orderId).1.orders.length + 1 = s.orders.length ∧
      mapGet (removeOrder s orderId).1.overlayIds orderId = none ∧
      ∃ pre, (removeOrder s orderId).2 =
          pre ++ [Emission.notifyEvent orderId OrderEvent.cancelled ord] ∧
        ∀ e ∈ pre, ∃ hdl, e = Emission.hostRemoveOverlay hdl) := by
  constructor
  · intro h
    simp only [removeOrder, h]
  · intro ord h hno hnov
    simp only [removeOrder, h]
    refine ⟨mapGet_mapDelete_self _ hno, length_mapDelete_of_mem h,
      mapGet_mapDelete_self _ hnov, _, rfl, ?_⟩
    intro e he
    cases hov : mapGet s.overlayIds orderId with
    | none => rw [hov] at he; simp at he
    | some hdl =>
        rw [hov] at he
        have he2 : e ∈ (if hdl ≠ "" ∧ s.hasChart = true
            then [Emission.hostRemoveOverlay hdl] else []) := he
        by_cases hc : hdl ≠ "" ∧ s.hasChart = true
        · rw [if_pos hc] at he2
          simp only [List.mem_singleton] at he2
          exact ⟨hdl, he2⟩
        · rw [if_neg hc] at he2
          simp at he2

/-- Witness for claim C8: the theorem applied to a concrete store, for a
present id and for an absent one, hypotheses discharged. -/
theorem removeOrder_spec_witness :
    mapGet c8state.orders "o1" = some c8order ∧
    mapGet (removeOrder c8state "o1").1.orders "o1" = none ∧
    (removeOrder c8state "o1").1.orders.length + 1 = c8state.orders.length ∧
    mapGet (removeOrder c8state "o1").1.overlayIds "o1" = none ∧
    removeOrder c8state "missing" = (c8state, []) := by
  have h2 := (removeOrder_spec c8state "o1").2 c8order rfl (by decide) (by decide)
  exact ⟨rfl, h2.1, h2.2.1, h2.2.2.1, (removeOrder_spec c8state "missing").1 rfl⟩

theorem exists_somes_of_not_badRequest (opts : CreateOrderOptions)
    (h : ¬ badRequest opts) :
    ∃ ty sd p q sym, opts.type = some ty ∧ opts.side = some sd ∧
      opts.price = some p ∧ opts.quantity = some q ∧ opts.symbol = some sym := by
  simp only [badRequest, not_or] at h
  obtain ⟨h1, h2, h3, h4, h5⟩ := h
  cases hty : opts.type with
  | none => exact absurd hty h1
  | some ty =>
    cases hsd : opts.side with
    | none => exact absurd hsd h2
    | some sd =>
      cases hp : opts.price with
      | none => exact absurd (by rw [hp]; rfl) h4
      | some p =>
        cases hq : opts.quantity with
        | none => exact absurd (by rw [hq]; rfl) h5
        | some q =>
          cases hsym : opts.symbol with
          | none => exact absurd (by rw [hsym]; rfl) h3
          | some sym => exact ⟨ty, sd, p, q, sym, rfl, rfl, rfl, rfl, rfl⟩

/-- Claim C10: addOrder never duplicates an identifier.  Any successful
call preserves key uniqueness of the store (so any sequence of addOrder
calls from a unique-keyed store holds at most one order per id), and a
valid request reusing an id already present succeeds, silently replaces
the stored order under that id without growing the store, and rebinds the
overlay handle of the id to the newly created primitive. -/
theorem addOrder_unique_ids :
    (∀ s opts genId now hh s1 oid ems, (mapKeys s.orders).Nodup →
      addOrder s opts genId now hh = Except.ok (s1, oid, ems) →
      (mapKeys s1.orders).Nodup ∧ ∀ k, (mapKeys s1.orders).count k ≤ 1) ∧
    (∀ s opts i old genId now hdl, opts.id = some i → i ≠ "" →
      mapGet s.orders i = some old → ¬ badRequest opts → (mapKeys s.orders).Nodup →
      ∃ s1 ems ord,
        addOrder s opts genId now (some hdl) = Except.ok (s1, i, ems) ∧
        mapGet s1.orders i = some ord ∧
        some ord.type = opts.type ∧ some ord.price = opts.price ∧
        s1.orders.length = s.orders.length ∧ (mapKeys s1.orders).Nodup ∧
        (s.hasChart = true → hdl ≠ "" → mapGet s1.overlayIds i = some hdl)) := by
  constructor
  · intro s opts genId now hh s1 oid ems hnd heq
    simp only [addOrder] at heq
    split at heq
    · exact absurd heq (by simp)
    · split at heq
      · simp only [Except.ok.injEq, Prod.mk.injEq] at heq
        obtain ⟨hs1, _, _⟩ := heq
        subst hs1
        refine ⟨nodup_mapKeys_mapSet _ _ hnd, fun k =>
          List.nodup_iff_count_le_one.mp (nodup_mapKeys_mapSet _ _ hnd) k⟩
      · exact absurd heq (by simp)
  · intro s opts i old genId now hdl hid hne hold hgood hnd
    obtain ⟨ty, sd, p, q, sym, hty, hsd, hp, hq, hsym⟩ :=
      exists_somes_of_not_badRequest opts hgood
    have hnil : validateOrder (draftOf opts (jsOrStr opts.id genId)) = [] :=
      (not_badRequest_iff opts (jsOrStr opts.id genId)).mpr hgood
    have hoid : jsOrStr opts.id genId = i := by
      rw [hid]; simp [jsOrStr, hne]
    rw [hoid] at hnil
    simp only [addOrder, hid, jsOrStr, hne, if_neg hne, hnil, hty, hsd, hp, hq, hsym,
      List.length_nil, lt_self_iff_false, if_false]
    refine ⟨_, _, _, rfl, mapGet_mapSet_self _ _ _, rfl, rfl,
      length_mapSet_of_mem hold _, nodup_mapKeys_mapSet _ _ hnd, ?_⟩
    intro hchart hhdl
    simp [createOrderOverlay, hchart, hhdl, buildOrder, mapGet_mapSet_self]

/-- Witness for claim C10: the theorem applied to a concrete store
already holding the id dup and a valid request reusing it, hypotheses
discharged. -/
theorem addOrder_unique_ids_witness :
    mapGet c10state.orders "dup" = some c10old ∧
    (∃ s1 ems ord,
      addOrder c10state c10opts "gen2" 0 (some "ovNew") = Except.ok (s1, "dup", ems) ∧
      mapGet s1.orders "dup" = some ord ∧
      some ord.type = c10opts.type ∧ some ord.price = c10opts.price ∧
      s1.orders.length = c10state.orders.length ∧ (mapKeys s1.orders).Nodup ∧
      (c10state.hasChart = true → "ovNew" ≠ "" → mapGet s1.overlayIds "dup" = some "ovNew")) :=
  ⟨rfl, addOrder_unique_ids.2 c10state c10opts "dup" c10old "gen2" 0 "ovNew" rfl
    (by decide) rfl (by decide) (by decide)⟩

end KlineOrders
